import Mathlib

/-!
Shallow embedding of the `validation` package of the enigma-id/go repository.

The repository ships the package's test file (`validation_test` in
src/unnamed/part_000) and its callers (the rest binder in part_002), but the
implementation itself is not in the source tree.  Every definition below is
therefore modelled from the specification of the validation engine: the rule
grammar, the rule evaluator set, the field validator, the struct walker, the
response model and the request customization protocol.  Rules that the claims
never exercise and that need facilities outside a shallow embedding
(regular-expression `match`, `email`, `url`, `json`, `cc`) are left out of the
evaluator registry; by the spec, unregistered rule names always pass.
-/

/-- Modelled from the spec: splitting a string on a separator character,
as the rule grammar parser does with `|`, `:` and `,` (Go strings.Split). -/
def splitChar (sep : Char) : List Char → List (List Char)
| [] => [[]]
| c :: cs =>
  let r := splitChar sep cs
  if c == sep then [] :: r
  else
    match r with
    | [] => [[c]]
    | g :: gs => (c :: g) :: gs

/-- String-level wrapper around `splitChar`. -/
def splitStr (sep : Char) (s : String) : List String :=
  (splitChar sep s.data).map String.mk

/-- Joins a list of strings with a separator string. -/
def joinWith (sep : String) : List String → String
| [] => ""
| [s] => s
| s :: rest => s ++ sep ++ joinWith sep rest

/-- Numeric value of a list of decimal digit characters. -/
def digitsVal (cs : List Char) : Nat :=
  cs.foldl (fun a c => a * 10 + (c.toNat - 48)) 0

/-- True when the list is a non-empty run of decimal digits. -/
def allDigits (cs : List Char) : Bool :=
  !cs.isEmpty && cs.all (fun c => c.isDigit)

/-- Parses a non-empty all-digit string as a natural number. -/
def parseNat? (s : String) : Option Nat :=
  if allDigits s.data then some (digitsVal s.data) else none

/-- Exact decimal number: an unnormalized fraction with a positive
denominator.  This models the numeric values the engine compares; all
numbers the engine meets are decimal literals, on which these comparisons
agree exactly with the source's floating-point comparisons. -/
structure NumQ where
  num : Int
  den : Nat
deriving DecidableEq, Repr

/-- Embeds an integer as a `NumQ`. -/
def NumQ.ofInt (n : Int) : NumQ := { num := n, den := 1 }

/-- Modelled from the spec: parsing the body of a decimal number literal,
`digits` or `digits.digits`, as rule parameters are parsed. -/
def parseNumBody (body : String) : Option NumQ :=
  match splitStr '.' body with
  | [i] => (parseNat? i).map (fun n => NumQ.ofInt n)
  | [i, f] =>
    match parseNat? i, parseNat? f with
    | some a, some b =>
      some { num := (a * 10 ^ f.length + b : Nat), den := 10 ^ f.length }
    | _, _ => none
  | _ => none

/-- Modelled from the spec: parsing a rule parameter as a number
(an optional minus sign followed by a decimal literal). -/
def parseNum (s : String) : Option NumQ :=
  match s.data with
  | '-' :: rest => (parseNumBody (String.mk rest)).map (fun q => { q with num := -q.num })
  | _ => parseNumBody s

/-- Strict order on exact decimals as an executable Boolean test. -/
def numLt (x y : NumQ) : Bool :=
  decide (x.num * (y.den : Int) < y.num * (x.den : Int))

/-- Non-strict order on exact decimals as an executable Boolean test. -/
def numLe (x y : NumQ) : Bool :=
  decide (x.num * (y.den : Int) ≤ y.num * (x.den : Int))

mutual
/-- Modelled from the spec: the runtime values the engine can receive — nil,
booleans, the integer and float families, strings, time values (only their
zero-ness is observable to the engine), pointers, slices/arrays and structs.
A struct is a list of (field name, rule tag, field value) triples in
declaration order. -/
inductive Value where
| vnil
| vbool (b : Bool)
| vint (n : Int)
| vfloat (q : NumQ)
| vstr (s : String)
| vtime (isZero : Bool)
| vptrNil
| vptr (v : Value)
| vslice (elems : ValueList)
| vstruct (fields : FieldList)

/-- List of values, for slice/array elements. -/
inductive ValueList where
| nil
| cons (head : Value) (tail : ValueList)

/-- List of struct fields: name, rule tag and value, in declaration order. -/
inductive FieldList where
| nil
| cons (name tag : String) (value : Value) (tail : FieldList)
end

/-- Builds a `ValueList` from a Lean list literal. -/
def vlist : List Value → ValueList
| [] => .nil
| v :: vs => .cons v (vlist vs)

/-- Builds a `FieldList` from a Lean list literal. -/
def vfields : List (String × String × Value) → FieldList
| [] => .nil
| (n, t, v) :: fs => .cons n t v (vfields fs)

/-- True when a `ValueList` is empty. -/
def ValueList.isNil : ValueList → Bool
| .nil => true
| .cons _ _ => false

/-- Modelled from the spec: the `required` evaluator — fails on nil; for
non-boolean kinds fails exactly on the zero value of the kind (empty string,
0, 0.0, nil or empty collection, zero time, nil pointer); booleans always
pass. -/
def evalRequired : Value → Bool
| .vnil => false
| .vbool _ => true
| .vint n => n != 0
| .vfloat q => q.num != 0
| .vstr s => s != ""
| .vtime isZero => !isZero
| .vptrNil => false
| .vptr _ => true
| .vslice vs => !vs.isNil
| .vstruct _ => true

/-- Modelled from the spec: the `numeric` evaluator — passes on the numeric
kinds and on strings that parse completely as a number. -/
def evalNumeric : Value → Bool
| .vint _ => true
| .vfloat _ => true
| .vstr s => (parseNum s).isSome
| _ => false

/-- Lifts a string predicate to an evaluator that fails on non-strings. -/
def strOnly (f : String → Bool) : String → Value → Bool := fun _ v =>
  match v with
  | .vstr s => f s
  | _ => false

/-- Numeric comparand of a value for the ordering rules: character length for
strings, the numeric value for the numeric kinds. -/
def comparand : Value → Option NumQ
| .vstr s => some (NumQ.ofInt (s.length : Nat))
| .vint n => some (NumQ.ofInt n)
| .vfloat q => some q
| _ => none

/-- Modelled from the spec: the shared shape of `gt`/`gte`/`lt`/`lte` — on an
unparsable parameter the rule evaluates to the fixed `onUnparsable` answer
(false for the lower bounds `gt`/`gte`, true for the upper bounds
`lt`/`lte`); otherwise it compares the comparand with the parsed bound. -/
def evalCmp (cmp : NumQ → NumQ → Bool) (onUnparsable : Bool) (p : String) (v : Value) : Bool :=
  match parseNum p with
  | none => onUnparsable
  | some bound =>
    match comparand v with
    | some x => cmp x bound
    | none => true

/-- Modelled from the spec: `range:a,b` — inclusive bounds on the comparand;
passes unconditionally when either bound fails to parse. -/
def evalRange (p : String) (v : Value) : Bool :=
  match splitStr ',' p with
  | [a, b] =>
    match parseNum a, parseNum b with
    | some lo, some hi =>
      match comparand v with
      | some x => numLe lo x && numLe x hi
      | none => true
    | _, _ => true
  | _ => true

/-- Modelled from the spec: `in:a,b,...` — string membership in the
comma-split parameter list. -/
def evalIn (p : String) (v : Value) : Bool :=
  match v with
  | .vstr s => (splitStr ',' p).contains s
  | _ => false

/-- Modelled from the spec: `not_in:a,b,...` — string non-membership. -/
def evalNotIn (p : String) (v : Value) : Bool :=
  match v with
  | .vstr s => !(splitStr ',' p).contains s
  | _ => false

/-- Modelled from the spec: `same:other` — exact string equality with the
parameter. -/
def evalSame (p : String) (v : Value) : Bool :=
  match v with
  | .vstr s => s == p
  | _ => false

/-- Modelled from the spec: the read-only evaluator registry mapping rule
names to predicate functions. -/
def ruleRegistry : List (String × (String → Value → Bool)) :=
  [ ("required", fun _ v => evalRequired v)
  , ("numeric", fun _ v => evalNumeric v)
  , ("alpha", strOnly (fun s => s.data.all (fun c => c.isAlpha)))
  , ("alpha_num", strOnly (fun s => s.data.all (fun c => c.isAlphanum)))
  , ("alpha_num_space", strOnly (fun s => s.data.all (fun c => c.isAlphanum || c == ' ')))
  , ("gt", evalCmp (fun x b => numLt b x) false)
  , ("gte", evalCmp (fun x b => numLe b x) false)
  , ("lt", evalCmp (fun x b => numLt x b) true)
  , ("lte", evalCmp (fun x b => numLe x b) true)
  , ("range", evalRange)
  , ("in", evalIn)
  , ("not_in", evalNotIn)
  , ("same", evalSame)
  ]

/-- True when the value is nil. -/
def Value.isNilV : Value → Bool
| .vnil => true
| _ => false

/-- Modelled from the spec: evaluating one rule on a value — a nil value
passes every rule except `required`, and an unregistered rule name is a no-op
that always passes. -/
def evalRule (name param : String) (v : Value) : Bool :=
  if v.isNilV && name != "required" then true
  else
    match ruleRegistry.find? (fun e => e.1 == name) with
    | some e => e.2 param v
    | none => true

/-- Modelled from the spec: the rule grammar parser — split the tag on `|`,
split each segment on the first `:` into name and raw parameter; the tags
`""` and `"-"` yield the empty rule set. -/
def parseRules (tag : String) : List (String × String) :=
  if tag == "" || tag == "-" then []
  else
    (splitStr '|' tag).map (fun seg =>
      match splitStr ':' seg with
      | [] => ("", "")
      | n :: rest => (n, joinWith ":" rest))

/-- Modelled from the spec: the field validator loop — evaluate the rules in
declared order and return the first failing rule, if any. -/
def firstFail (v : Value) : List (String × String) → Option (String × String)
| [] => none
| r :: rest => if evalRule r.1 r.2 v then firstFail v rest else some r

/-- Modelled from the spec: the built-in default message template keyed by
rule name, with its placeholders left raw. -/
def templateFor (rule : String) : String :=
  match rule with
  | "required" => "The %s field is required"
  | "email" => "The %s must be a valid email address"
  | "match" => "The %s format is invalid"
  | "range" => "The %s must be between %s and %s"
  | _ => "The %s is invalid"

/-- Modelled from the spec: default message resolution at a struct leaf —
the template keyed by rule name with the field's path segment substituted,
and for `range` also the two bounds. -/
def messageFor (rule param fn : String) : String :=
  match rule with
  | "required" => "The " ++ fn ++ " field is required"
  | "email" => "The " ++ fn ++ " must be a valid email address"
  | "match" => "The " ++ fn ++ " format is invalid"
  | "range" =>
    match splitStr ',' param with
    | [a, b] => "The " ++ fn ++ " must be between " ++ a ++ " and " ++ b
    | _ => "The " ++ fn ++ " is invalid"
  | _ => "The " ++ fn ++ " is invalid"

/-- Modelled from the spec: the Response — a validity flag plus an ordered
mapping from error path to message. -/
structure Response where
  valid : Bool
  messages : List (String × String)
deriving DecidableEq, Repr

/-- The fresh, valid, empty Response a validation call starts from. -/
def Response.ok : Response := { valid := true, messages := [] }

/-- True when the Response already holds a message at the exact path. -/
def Response.hasPath (r : Response) (p : String) : Bool :=
  r.messages.any (fun kv => kv.1 == p)

/-- Modelled from the spec: `Failure(path, message)` — sets `valid` to false
and appends the message at the path, unless the exact path already has a
recorded message (first write wins). -/
def Response.failure (r : Response) (p m : String) : Response :=
  if r.hasPath p then { r with valid := false }
  else { valid := false, messages := r.messages ++ [(p, m)] }

/-- Modelled from the spec: `GetMessage(path)` — the exact message at the
path, or the empty string when absent. -/
def Response.getMessage (r : Response) (p : String) : String :=
  match r.messages.find? (fun kv => kv.1 == p) with
  | some kv => kv.2
  | none => ""

/-- Modelled from the spec: `GetMessages()` — the full path-to-message
mapping. -/
def Response.getMessages (r : Response) : List (String × String) := r.messages

/-- Removes the final dot-separated segment of a path. -/
def stripLast (p : String) : String :=
  joinWith "." (splitStr '.' p).dropLast

/-- Worker for `GetErrors`: walks the messages, strips the trailing segment
of every key and keeps only the first entry for each stripped key. -/
def getErrorsAux : List (String × String) → List String → List (String × String)
| [], _ => []
| kv :: rest, seen =>
  let k2 := stripLast kv.1
  if seen.contains k2 then getErrorsAux rest seen
  else (k2, kv.2) :: getErrorsAux rest (k2 :: seen)

/-- Modelled from the spec: `GetErrors()` — the coarser mapping with each
path's trailing rule-name segment stripped, first entry winning on
collisions. -/
def Response.getErrors (r : Response) : List (String × String) :=
  getErrorsAux r.messages []

/-- Modelled from the spec: `ValidateField` — validates one scalar against a
tag string; on the first failing rule records that rule's bare name as the
path and the raw default template as the message. -/
def Validator.field (v : Value) (spec : String) : Response :=
  match firstFail v (parseRules spec) with
  | none => Response.ok
  | some r => Response.ok.failure r.1 (templateFor r.1)

/-- True when the parsed tag contains a `required` rule. -/
def hasRequired (tag : String) : Bool :=
  (parseRules tag).any (fun r => r.1 == "required")

/-- Modelled from the spec: field-name-to-path-segment conversion — the
identifier's word-boundary casing becomes lowercase words joined by
underscores. -/
def snakeAux : List Char → List Char
| [] => []
| c :: cs =>
  if c.isUpper then '_' :: c.toLower :: snakeAux cs
  else c :: snakeAux cs

/-- Converts a struct field name to its lowercase underscore path segment. -/
def snakeCase (s : String) : String :=
  match s.data with
  | [] => ""
  | c :: cs => String.mk (c.toLower :: snakeAux cs)

/-- Appends a segment to a dotted path, with no leading dot at the root. -/
def pathJoin (pfx seg : String) : String :=
  if pfx == "" then seg else pfx ++ "." ++ seg

/-- One failure entry: error path paired with its resolved default message. -/
def requiredEntry (path seg : String) : String × String :=
  (path ++ ".required", messageFor "required" "" seg)

/-- Modelled from the spec: validating a scalar leaf carrying a tag — run the
field validator and, on the first failing rule, produce one entry at
`path.<ruleName>` with the default message for the field's segment. -/
def leafEntries (path seg tag : String) (v : Value) : List (String × String) :=
  match firstFail v (parseRules tag) with
  | none => []
  | some r => [(path ++ "." ++ r.1, messageFor r.1 r.2 seg)]

mutual
/-- Modelled from the spec: the struct walker over a field list — each field
is visited in declaration order, building failure entries. -/
def walkFields (pfx : String) : FieldList → List (String × String)
| .nil => []
| .cons name tag v rest => walkField pfx name tag v ++ walkFields pfx rest

/-- Modelled from the spec: walking one struct field — a `-` tag skips the
field entirely; composites check a declared `required` rule first (pointer
nilness / collection emptiness) and otherwise recurse; tagged scalars run the
field validator; untagged scalars are not validated. -/
def walkField (pfx name tag : String) (v : Value) : List (String × String) :=
  if tag == "-" then []
  else
    let seg := snakeCase name
    let path := pathJoin pfx seg
    match v with
    | .vstruct fs =>
      if hasRequired tag && !evalRequired v then [requiredEntry path seg]
      else walkFields path fs
    | .vptrNil =>
      if hasRequired tag && !evalRequired v then [requiredEntry path seg]
      else []
    | .vptr inner =>
      if hasRequired tag && !evalRequired v then [requiredEntry path seg]
      else walkDeref path seg tag inner
    | .vslice vs =>
      if hasRequired tag && !evalRequired v then [requiredEntry path seg]
      else walkElems path 0 vs
    | _ =>
      if tag == "" then [] else leafEntries path seg tag v

/-- Modelled from the spec: a non-nil pointer is dereferenced and its pointee
walked under the same path, with no extra segment. -/
def walkDeref (path seg tag : String) (inner : Value) : List (String × String) :=
  match inner with
  | .vstruct fs => walkFields path fs
  | _ => if tag == "" then [] else leafEntries path seg tag inner

/-- Modelled from the spec: slice/array elements are visited in order, each
under an appended zero-based integer index segment. -/
def walkElems (pfx : String) (i : Nat) : ValueList → List (String × String)
| .nil => []
| .cons v rest =>
  walkElem (pfx ++ "." ++ Nat.repr i) v ++ walkElems pfx (i + 1) rest

/-- Modelled from the spec: one slice element — structs are walked, pointer
elements are dereferenced under the same indexed path, scalars are left
alone. -/
def walkElem (path : String) : Value → List (String × String)
| .vstruct fs => walkFields path fs
| .vptr inner => walkElem path inner
| _ => []
end

/-- Folds a list of failure entries into a Response via `Failure`. -/
def respOfList (l : List (String × String)) : Response :=
  l.foldl (fun r kv => r.failure kv.1 kv.2) Response.ok

/-- True when the top-level value is a struct or a non-nil
pointer-to-struct — the shapes structural validation accepts. -/
def structShaped : Value → Bool
| .vstruct _ => true
| .vptr (.vstruct _) => true
| _ => false

/-- Modelled from the spec: `ValidateStruct` — full structural validation of
a struct or pointer-to-struct; any other top-level value yields an
immediately invalid Response with no granular detail. -/
def Validator.struct (v : Value) : Response :=
  match v with
  | .vstruct fs => respOfList (walkFields "" fs)
  | .vptr (.vstruct fs) => respOfList (walkFields "" fs)
  | _ => { valid := false, messages := [] }

/-- Looks a key up in an association list of strings. -/
def lookupStr (l : List (String × String)) (k : String) : Option String :=
  (l.find? (fun kv => kv.1 == k)).map (fun kv => kv.2)

/-- True when the string is a non-empty run of decimal digits, i.e. an
integer index segment. -/
def isIndexSeg (s : String) : Bool := allDigits s.data

/-- Modelled from the spec: wildcard pattern match — the pattern's segments
must align with the path's segments, a `*` segment matching any integer
index at that position. -/
def segsMatch : List String → List String → Bool
| [], [] => true
| p :: ps, s :: ss => (p == s || (p == "*" && isIndexSeg s)) && segsMatch ps ss
| _, _ => false

/-- Wildcard match on whole dotted paths. -/
def patMatch (pat path : String) : Bool :=
  segsMatch (splitStr '.' pat) (splitStr '.' path)

/-- Modelled from the spec: message resolution under overrides — exact path
match first, then a wildcard pattern match, then the already-resolved
default. -/
def resolveMsg (ov : List (String × String)) (path dflt : String) : String :=
  match lookupStr ov path with
  | some m => m
  | none =>
    match ov.find? (fun kv => patMatch kv.1 path) with
    | some kv => kv.2
    | none => dflt

/-- Unions a second message list into a base list; entries at an already
present path never replace the existing ones. -/
def mergeMsgs (base : List (String × String)) : List (String × String) → List (String × String)
| [] => base
| kv :: rest =>
  if base.any (fun e => e.1 == kv.1) then mergeMsgs base rest
  else mergeMsgs (base ++ [kv]) rest

/-- Modelled from the spec: merging a custom self-check Response into the
structural one — validity is AND-ed (invalidity OR-ed), messages unioned
with existing paths winning. -/
def Response.merge (r s : Response) : Response :=
  { valid := r.valid && s.valid, messages := mergeMsgs r.messages s.messages }

/-- Modelled from the spec: a top-level value offered to request-style
validation, together with the optional capabilities probed on it — the
message-override map (empty when the value does not provide one) and the
custom self-check Response (none when the value does not provide one). -/
structure ReqValue where
  value : Value
  overrides : List (String × String)
  selfCheck : Option Response

/-- Structural validation merged with the optional self-check, before
message re-resolution. -/
def requestBase (rv : ReqValue) : Response :=
  match rv.selfCheck with
  | some sc => (Validator.struct rv.value).merge sc
  | none => Validator.struct rv.value

/-- Modelled from the spec: `ValidateRequest` — run structural validation,
merge the value's self-check Response if it has one, then re-resolve every
message through the override lookup order. -/
def Validator.request (rv : ReqValue) : Response :=
  let merged := requestBase rv
  { merged with
    messages := merged.messages.map (fun kv => (kv.1, resolveMsg rv.overrides kv.1 kv.2)) }

/-- Concrete value for the slice-of-pointers path scenario: a struct field
named from the words Slices and Ptr holding one pointer to a struct whose
`Zip` field is a required empty string. -/
def slicesPtrEx : Value :=
  Value.vstruct (vfields
    [("SlicesPtr", "required",
       Value.vslice (vlist
         [Value.vptr (Value.vstruct (vfields [("Zip", "required", Value.vstr "")]))]))])

/-- Concrete value with a two-element untagged slice of structs, both
elements failing, to observe index segments in element order. -/
def worksEx : Value :=
  Value.vstruct (vfields
    [("Works", "",
       Value.vslice (vlist
         [ Value.vstruct (vfields [("Zip", "required", Value.vstr "")])
         , Value.vstruct (vfields [("Zip", "required", Value.vstr "")])]))])

/-- Concrete value with an untagged non-nil pointer-to-struct field, to
observe that dereferencing adds no path segment. -/
def homeEx : Value :=
  Value.vstruct (vfields
    [("Home", "",
       Value.vptr (Value.vstruct (vfields [("Zip", "required", Value.vstr "")])))])

/-- Concrete value for the override scenario: a `Password` field tagged
`required|gte:7` holding a 2-character string. -/
def pwEx : Value :=
  Value.vstruct (vfields [("Password", "required|gte:7", Value.vstr "ab")])

/-- The override scenario's request value: `pwEx` with a message override at
`password.gte` and no self-check. -/
def pwRV : ReqValue :=
  { value := pwEx, overrides := [("password.gte", "more length please")], selfCheck := none }

/-- Concrete value for the wildcard scenario: a required `Members` slice
whose only element has an `Age` of 170 against `range:1,140`. -/
def memEx : Value :=
  Value.vstruct (vfields
    [("Members", "required",
       Value.vslice (vlist
         [Value.vstruct (vfields [("Age", "required|range:1,140", Value.vint 170)])]))])

/-- The wildcard scenario's request value: `memEx` with a wildcard override
at `members.*.age.range` and no self-check. -/
def memRV : ReqValue :=
  { value := memEx, overrides := [("members.*.age.range", "invalid")], selfCheck := none }

/-- True when the value is of boolean kind. -/
def Value.isBoolV : Value → Bool
| .vbool _ => true
| _ => false

/-- Stated from the spec's words, for comparison with the evaluator: the
zero value of each non-boolean kind — empty string, 0, 0.0, empty or nil
collection, zero-valued time, nil pointer, and nil itself. -/
def isZeroValue : Value → Bool
| .vnil => true
| .vstr s => s == ""
| .vint n => n == 0
| .vfloat q => q.num == 0
| .vslice vs => vs.isNil
| .vtime isZero => isZero
| .vptrNil => true
| _ => false

/-! Helper lemmas about the field validator and the response model. -/

/-- The field validator loop returns exactly the first rule in declared order
whose evaluator rejects the value. -/
theorem firstFail_eq_find (v : Value) (rs : List (String × String)) :
    firstFail v rs = rs.find? (fun r => !evalRule r.1 r.2 v) := by
  induction rs with
  | nil => rfl
  | cons r rest ih =>
    by_cases h : evalRule r.1 r.2 v
    · simp [firstFail, h, List.find?_cons_of_neg, ih]
    · simp [firstFail, h, List.find?_cons_of_pos]

/-- Characterization of `ValidateField`: a valid empty Response when every
rule passes, else a single failure keyed by the first failing rule's name and
carrying its raw template. -/
theorem field_char (v : Value) (spec : String) :
    Validator.field v spec =
      match (parseRules spec).find? (fun r => !evalRule r.1 r.2 v) with
      | none => Response.ok
      | some r => { valid := false, messages := [(r.1, templateFor r.1)] } := by
  unfold Validator.field
  rw [firstFail_eq_find]
  cases (parseRules spec).find? (fun r => !evalRule r.1 r.2 v) <;> rfl

/-- Recording a failure always leaves the Response invalid. -/
theorem failure_valid (r : Response) (p m : String) :
    (r.failure p m).valid = false := by
  unfold Response.failure
  split <;> rfl

/-- Recording a failure extends the message list by at most one entry. -/
theorem failure_messages (r : Response) (p m : String) :
    (r.failure p m).messages = r.messages ∨
      (r.failure p m).messages = r.messages ++ [(p, m)] := by
  unfold Response.failure
  split
  · exact Or.inl rfl
  · exact Or.inr rfl

/-- Folding failures into a Response keeps it valid exactly when the list of
entries is empty and the start was valid. -/
theorem foldl_failure_valid (l : List (String × String)) (r : Response) :
    (l.foldl (fun r2 kv => r2.failure kv.1 kv.2) r).valid = (r.valid && l.isEmpty) := by
  induction l generalizing r with
  | nil => simp
  | cons kv rest ih =>
    simp only [List.foldl_cons, ih, failure_valid, List.isEmpty_cons]
    simp

/-- Folding failures into a Response only ever appends messages. -/
theorem foldl_failure_messages (l : List (String × String)) (r : Response) :
    ∃ t, (l.foldl (fun r2 kv => r2.failure kv.1 kv.2) r).messages = r.messages ++ t := by
  induction l generalizing r with
  | nil => exact ⟨[], by simp⟩
  | cons kv rest ih =>
    obtain ⟨t, ht⟩ := ih (r.failure kv.1 kv.2)
    rcases failure_messages r kv.1 kv.2 with h | h
    · exact ⟨t, by simp [List.foldl_cons, ht, h]⟩
    · exact ⟨(kv.1, kv.2) :: t, by simp [List.foldl_cons, ht, h]⟩

/-- A Response built from a list of entries is valid iff the list is
empty. -/
theorem respOfList_valid (l : List (String × String)) :
    (respOfList l).valid = l.isEmpty := by
  unfold respOfList
  simp [foldl_failure_valid, Response.ok]

/-- A Response built from a list of entries has no messages iff the list is
empty. -/
theorem respOfList_messages_nil (l : List (String × String)) :
    (respOfList l).messages = [] ↔ l = [] := by
  constructor
  · intro h
    cases l with
    | nil => rfl
    | cons kv rest =>
      exfalso
      obtain ⟨t, ht⟩ := foldl_failure_messages rest (Response.ok.failure kv.1 kv.2)
      have hstep : (Response.ok.failure kv.1 kv.2).messages = [(kv.1, kv.2)] := rfl
      unfold respOfList at h
      simp only [List.foldl_cons] at h
      rw [ht, hstep] at h
      simp at h
  · intro h
    subst h
    rfl

/-- Structural validation of a struct-shaped value is valid iff it produced
no messages. -/
theorem struct_valid_iff (v : Value) (h : structShaped v = true) :
    (Validator.struct v).valid = true ↔ (Validator.struct v).messages = [] := by
  cases v with
  | vstruct fs =>
    simp only [Validator.struct, respOfList_valid, respOfList_messages_nil,
      List.isEmpty_iff]
  | vptr inner =>
    cases inner with
    | vstruct fs =>
      simp only [Validator.struct, respOfList_valid, respOfList_messages_nil,
        List.isEmpty_iff]
    | _ => simp_all [structShaped]
  | _ => simp_all [structShaped]

/-- Merging never reaches the empty message list from a non-empty base. -/
theorem mergeMsgs_ne_nil (l base : List (String × String)) (h : base ≠ []) :
    mergeMsgs base l ≠ [] := by
  induction l generalizing base with
  | nil => simpa [mergeMsgs] using h
  | cons kv rest ih =>
    unfold mergeMsgs
    split
    · exact ih base h
    · exact ih (base ++ [kv]) (by simp)

/-- If a merge produced no messages, the base had none. -/
theorem mergeMsgs_nil_base (l base : List (String × String))
    (h : mergeMsgs base l = []) : base = [] := by
  by_cases hb : base = []
  · exact hb
  · exact absurd h (mergeMsgs_ne_nil l base hb)

/-- Merging an empty self-check message list changes nothing. -/
theorem mergeMsgs_nil_right (base : List (String × String)) :
    mergeMsgs base [] = base := rfl

/-- The validity flag of the self-check a request value carries, true when
none is provided. -/
def scValid (rv : ReqValue) : Bool :=
  match rv.selfCheck with
  | some sc => sc.valid
  | none => true

/-- A well-formed self-check declares no messages while valid (a Response
built only through `Failure` always satisfies this). -/
def scWellFormed (rv : ReqValue) : Prop :=
  ∀ sc, rv.selfCheck = some sc → sc.valid = true → sc.messages = []

/-- Keys are preserved when re-resolving every message, so path lookup
commutes with the resolution pass. -/
theorem find_map_resolve (l : List (String × String)) (f : String → String → String)
    (p : String) :
    (l.map (fun kv => (kv.1, f kv.1 kv.2))).find? (fun kv => kv.1 == p) =
      (l.find? (fun kv => kv.1 == p)).map (fun kv => (kv.1, f kv.1 kv.2)) := by
  induction l with
  | nil => rfl
  | cons kv rest ih =>
    by_cases h : kv.1 == p
    · simp [List.find?_cons_of_pos, h]
    · simp only [List.map_cons]
      rw [List.find?_cons_of_neg _ (by simpa using h),
        List.find?_cons_of_neg _ (by simpa using h), ih]

/-- Worker lemma for `GetErrors`: looking up a not-yet-seen key in the
collapsed mapping returns the message of the first underlying entry whose
stripped path equals that key. -/
theorem getErrorsAux_lookup (msgs : List (String × String)) (seen : List String)
    (k : String) (h : seen.contains k = false) :
    lookupStr (getErrorsAux msgs seen) k =
      (msgs.find? (fun kv => stripLast kv.1 == k)).map Prod.snd := by
  induction msgs generalizing seen with
  | nil => rfl
  | cons kv rest ih =>
    by_cases hseen : seen.contains (stripLast kv.1)
    · have hne : (stripLast kv.1 == k) = false := by
        by_cases he : stripLast kv.1 = k
        · rw [he] at hseen; rw [hseen] at h; cases h
        · simpa using he
      rw [List.find?_cons_of_neg _ (by simp [hne])]
      simp only [getErrorsAux, hseen, if_true]
      exact ih seen h
    · simp only [getErrorsAux, hseen]
      by_cases he : stripLast kv.1 = k
      · rw [List.find?_cons_of_pos _ (by simp [he])]
        simp [lookupStr, List.find?_cons_of_pos, he]
      · rw [List.find?_cons_of_neg _ (by simp [he])]
        have h2 : ((stripLast kv.1 :: seen).contains k) = false := by
          simp only [List.contains_cons, Bool.or_eq_false_iff]
          exact ⟨by simpa using fun hx => he hx.symm, h⟩
        have hstep :
            lookupStr ((stripLast kv.1, kv.2) :: getErrorsAux rest (stripLast kv.1 :: seen)) k =
              lookupStr (getErrorsAux rest (stripLast kv.1 :: seen)) k := by
          simp [lookupStr, List.find?_cons_of_neg, he]
        rw [if_neg (by simp [hseen]), hstep]
        exact ih (stripLast kv.1 :: seen) h2

/-- Every collapsed entry comes from an underlying message whose stripped
path is the collapsed key. -/
theorem getErrorsAux_mem (msgs : List (String × String)) (seen : List String)
    (kv : String × String) (h : kv ∈ getErrorsAux msgs seen) :
    ∃ kv2, kv2 ∈ msgs ∧ stripLast kv2.1 = kv.1 ∧ kv2.2 = kv.2 := by
  induction msgs generalizing seen with
  | nil => cases h
  | cons kv0 rest ih =>
    simp only [getErrorsAux] at h
    split at h
    · obtain ⟨kv2, hmem, hs, hv⟩ := ih seen h
      exact ⟨kv2, List.mem_cons_of_mem _ hmem, hs, hv⟩
    · rcases List.mem_cons.mp h with he | ht
      · exact ⟨kv0, List.mem_cons_self _ _, by rw [he], by rw [he]⟩
      · obtain ⟨kv2, hmem, hs, hv⟩ := ih _ ht
        exact ⟨kv2, List.mem_cons_of_mem _ hmem, hs, hv⟩

/-! Claim theorems. -/

/-- C1: the field validator evaluates the rules in declared order and stops
at the first failing rule, recording exactly that one failure, so one field
contributes at most one entry per call; in particular
`ValidateField(0, "required|numeric")` fails on `required` while
`ValidateField(0, "numeric")` is valid, and
`ValidateField("abcd", "alpha|in:abcde,cdba")` fails on `in`. -/
theorem claim_c1_field_short_circuit :
    (∀ (v : Value) (spec : String),
      Validator.field v spec =
        match (parseRules spec).find? (fun r => !evalRule r.1 r.2 v) with
        | none => Response.ok
        | some r => { valid := false, messages := [(r.1, templateFor r.1)] }) ∧
    (∀ (v : Value) (spec : String), (Validator.field v spec).messages.length ≤ 1) ∧
    (Validator.field (Value.vint 0) "required|numeric").valid = false ∧
    (Validator.field (Value.vint 0) "required|numeric").messages.map Prod.fst
      = ["required"] ∧
    (Validator.field (Value.vint 0) "numeric").valid = true ∧
    (Validator.field (Value.vstr "abcd") "alpha|in:abcde,cdba").valid = false ∧
    (Validator.field (Value.vstr "abcd") "alpha|in:abcde,cdba").messages.map Prod.fst
      = ["in"] := by
  refine ⟨field_char, ?_, by decide, by decide, by decide, by decide, by decide⟩
  intro v spec
  rw [field_char]
  cases (parseRules spec).find? (fun r => !evalRule r.1 r.2 v) <;> simp [Response.ok]

/-- C3: the `required` rule fails on nil, passes on every boolean (including
false), and on every non-boolean kind fails exactly on the zero value of the
kind; consequently `ValidateField(false, "required")` is valid and
`ValidateField(nil, "required")` is invalid. -/
theorem claim_c3_required_rule :
    (∀ p : String, evalRule "required" p Value.vnil = false) ∧
    (∀ (p : String) (b : Bool), evalRule "required" p (Value.vbool b) = true) ∧
    (∀ (p : String) (v : Value),
      v.isBoolV = false → evalRule "required" p v = !isZeroValue v) ∧
    (Validator.field (Value.vbool false) "required").valid = true ∧
    (Validator.field Value.vnil "required").valid = false := by
  refine ⟨?_, ?_, ?_, by decide, by decide⟩
  · intro p
    simp [evalRule, Value.isNilV, ruleRegistry, List.find?, evalRequired]
  · intro p b
    simp [evalRule, Value.isNilV, ruleRegistry, List.find?, evalRequired]
  · intro p v hb
    cases v <;>
      simp_all [evalRule, Value.isNilV, Value.isBoolV, ruleRegistry, evalRequired,
        isZeroValue, List.find?, bne]

/-- C5: for every numeric-kind comparand, `gt` and `gte` with an unparsable
parameter always fail while `lt` and `lte` with an unparsable parameter
always pass; in particular at value 2.5 and parameter `test`. -/
theorem claim_c5_unparsable_bounds :
    (∀ (p : String) (q : NumQ), parseNum p = none →
      evalRule "gt" p (Value.vfloat q) = false ∧
      evalRule "gte" p (Value.vfloat q) = false ∧
      evalRule "lt" p (Value.vfloat q) = true ∧
      evalRule "lte" p (Value.vfloat q) = true) ∧
    (∀ (p : String) (n : Int), parseNum p = none →
      evalRule "gt" p (Value.vint n) = false ∧
      evalRule "gte" p (Value.vint n) = false ∧
      evalRule "lt" p (Value.vint n) = true ∧
      evalRule "lte" p (Value.vint n) = true) ∧
    (Validator.field (Value.vfloat ⟨25, 10⟩) "gt:test").valid = false ∧
    (Validator.field (Value.vfloat ⟨25, 10⟩) "gte:test").valid = false ∧
    (Validator.field (Value.vfloat ⟨25, 10⟩) "lt:test").valid = true ∧
    (Validator.field (Value.vfloat ⟨25, 10⟩) "lte:test").valid = true := by
  refine ⟨?_, ?_, by decide, by decide, by decide, by decide⟩ <;>
  · intro p x h
    refine ⟨?_, ?_, ?_, ?_⟩ <;>
      simp [evalRule, Value.isNilV, ruleRegistry, List.find?, evalCmp, h]

/-- C5 witness: the general statement instantiated at parameter `test` and
value 2.5, whose parse failure is discharged by computation. -/
theorem claim_c5_unparsable_bounds_witness :
    evalRule "gt" "test" (Value.vfloat ⟨25, 10⟩) = false ∧
    evalRule "gte" "test" (Value.vfloat ⟨25, 10⟩) = false ∧
    evalRule "lt" "test" (Value.vfloat ⟨25, 10⟩) = true ∧
    evalRule "lte" "test" (Value.vfloat ⟨25, 10⟩) = true :=
  claim_c5_unparsable_bounds.1 "test" ⟨25, 10⟩ (by decide)

/-- C8: the struct walker converts word-boundary casing to lowercase words
joined by underscores, appends zero-based index segments for slice elements
in order, and dereferences a non-nil pointer-to-struct without adding a
segment; a failing `required` on field `Zip` of the first element of slice
field `SlicesPtr` lands at `slices_ptr.0.zip.required`. -/
theorem claim_c8_walker_paths :
    snakeCase "SlicesPtr" = "slices_ptr" ∧
    (Validator.struct slicesPtrEx).messages
      = [("slices_ptr.0.zip.required", "The zip field is required")] ∧
    (Validator.struct slicesPtrEx).valid = false ∧
    (Validator.struct worksEx).messages.map Prod.fst
      = ["works.0.zip.required", "works.1.zip.required"] ∧
    (Validator.struct homeEx).messages.map Prod.fst = ["home.zip.required"] := by
  refine ⟨by decide, by decide, by decide, by decide, by decide⟩

/-- C9: a top-level value that is neither a struct nor a pointer-to-struct
yields an immediately invalid Response with no granular path detail; the
walker is a total function, so no fault is raised; in particular on nil and
on the string `im not a struct`. -/
theorem claim_c9_shape_failure :
    (∀ v : Value, structShaped v = false →
      Validator.struct v = { valid := false, messages := [] }) ∧
    Validator.struct Value.vnil = { valid := false, messages := [] } ∧
    Validator.struct (Value.vstr "im not a struct") = { valid := false, messages := [] } := by
  refine ⟨?_, by decide, by decide⟩
  intro v h
  cases v with
  | vptr inner => cases inner <;> simp_all [structShaped, Validator.struct]
  | _ => simp_all [structShaped, Validator.struct]

/-- C9 witness: the general shape-failure statement instantiated at nil. -/
theorem claim_c9_shape_failure_witness :
    Validator.struct Value.vnil = { valid := false, messages := [] } :=
  claim_c9_shape_failure.1 Value.vnil (by decide)

/-- C10: a failure recorded by `ValidateField` is keyed by the bare rule
name taken from the rule specification, and stores the raw built-in template
with its placeholder unsubstituted; concretely `GetMessage("required")` on
`ValidateField(nil, "required|numeric")` is `The %s field is required`. -/
theorem claim_c10_field_raw_template :
    (∀ (v : Value) (spec : String) (kv : String × String),
      kv ∈ (Validator.field v spec).messages →
        kv.1 ∈ (parseRules spec).map Prod.fst ∧ kv.2 = templateFor kv.1) ∧
    (Validator.field Value.vnil "required|numeric").messages
      = [("required", "The %s field is required")] ∧
    (Validator.field Value.vnil "required|numeric").getMessage "required"
      = "The %s field is required" := by
  refine ⟨?_, by decide, by decide⟩
  intro v spec kv hmem
  rw [field_char] at hmem
  rcases hfind : (parseRules spec).find? (fun r => !evalRule r.1 r.2 v) with - | r
  · rw [hfind] at hmem
    cases hmem
  · rw [hfind] at hmem
    simp only [List.mem_singleton] at hmem
    subst hmem
    have hr : r ∈ parseRules spec := List.mem_of_find?_eq_some hfind
    exact ⟨show r.1 ∈ (parseRules spec).map Prod.fst from List.mem_map_of_mem Prod.fst hr, rfl⟩

/-- C10 witness: the general statement instantiated at the concrete failing
field validation, its membership hypothesis discharged by computation. -/
theorem claim_c10_field_raw_template_witness :
    ("required", "The %s field is required").1
        ∈ (parseRules "required|numeric").map Prod.fst ∧
    ("required", "The %s field is required").2
        = templateFor ("required", "The %s field is required").1 :=
  claim_c10_field_raw_template.1 Value.vnil "required|numeric"
    ("required", "The %s field is required") (by decide)

/-- C3 witness: the non-boolean zero-value characterization instantiated at
the integer zero, its kind hypothesis discharged by computation. -/
theorem claim_c3_required_rule_witness :
    evalRule "required" "" (Value.vint 0) = !isZeroValue (Value.vint 0) :=
  claim_c3_required_rule.2.2.1 "" (Value.vint 0) (by decide)

/-- C6 counterexample: `ValidateField(nil, "required|numeric")` produces a
Response whose messages key `required` has a single segment, so stripping
the trailing segment leaves the empty string — `GetErrors()` then has an
empty key, refuting the claim's assertion that no `GetErrors()` key is
empty. -/
theorem claim_c6_counterexample :
    (Validator.field Value.vnil "required|numeric").getErrors
      = [("", "The %s field is required")] := by decide

/-- Looking a key up in a string association list succeeds exactly when the
key occurs among the first components. -/
theorem lookupStr_isSome (l : List (String × String)) (k : String) :
    (lookupStr l k).isSome = true ↔ k ∈ l.map Prod.fst := by
  simp only [lookupStr, Option.isSome_map', List.find?_isSome, List.mem_map]
  constructor
  · rintro ⟨kv, hm, he⟩
    exact ⟨kv, hm, by simpa using he⟩
  · rintro ⟨kv, hm, he⟩
    exact ⟨kv, hm, by simpa using he⟩

/-- C6 (amended): the keys of `GetErrors()` are exactly the keys of
`GetMessages()` with their final dot-separated segment removed (possibly the
empty string for single-segment keys), and each value is the message of the
first underlying entry whose stripped key matches — the first one
encountered wins on collisions. -/
theorem claim_c6_get_errors :
    (∀ (r : Response) (k : String),
      lookupStr r.getErrors k =
        (r.messages.find? (fun kv => stripLast kv.1 == k)).map Prod.snd) ∧
    (∀ (r : Response) (k : String),
      k ∈ r.getErrors.map Prod.fst ↔ ∃ kv ∈ r.messages, stripLast kv.1 = k) ∧
    (∀ (r : Response) (kv : String × String), kv ∈ r.getErrors →
      ∃ kv2 ∈ r.messages, stripLast kv2.1 = kv.1 ∧ kv2.2 = kv.2) := by
  have hlook : ∀ (r : Response) (k : String),
      lookupStr r.getErrors k =
        (r.messages.find? (fun kv => stripLast kv.1 == k)).map Prod.snd :=
    fun r k => getErrorsAux_lookup r.messages [] k rfl
  refine ⟨hlook, ?_, fun r kv h => getErrorsAux_mem r.messages [] kv h⟩
  intro r k
  rw [← lookupStr_isSome, hlook r k]
  simp only [Option.isSome_map', List.find?_isSome]
  constructor
  · rintro ⟨kv, hm, he⟩
    exact ⟨kv, hm, by simpa using he⟩
  · rintro ⟨kv, hm, he⟩
    exact ⟨kv, hm, by simpa using he⟩

/-- C6 witness: the collapsed-entry provenance instantiated at the concrete
field Response whose single collapsed key is empty. -/
theorem claim_c6_get_errors_witness :
    ∃ kv2 ∈ (Validator.field Value.vnil "required|numeric").messages,
      stripLast kv2.1 = ("", "The %s field is required").1 ∧
      kv2.2 = ("", "The %s field is required").2 :=
  claim_c6_get_errors.2.2 (Validator.field Value.vnil "required|numeric")
    ("", "The %s field is required") (by decide)

/-- C7 counterexample: on a Response that already records a message at the
path, a later `Failure(p, m1)` does not land, so `GetMessage(p)` afterwards
is the original message and not `m1` — refuting the claim's universal
quantification over every Response. -/
theorem claim_c7_counterexample :
    (((Response.ok.failure "p" "m0").failure "p" "m1").failure "p" "m2").getMessage "p"
        = "m0" ∧
    ¬ ((((Response.ok.failure "p" "m0").failure "p" "m1").failure "p" "m2").getMessage "p"
        = "m1") := by decide

/-- C7 (amended): on a Response with no recorded message at `p`, calling
`Failure(p, m1)` and then `Failure(p, m2)` leaves `GetMessage(p) = m1` — the
first write for the path wins and later writes are ignored. -/
theorem claim_c7_failure_first_write_wins :
    ∀ (r : Response) (p m1 m2 : String), r.hasPath p = false →
      ((r.failure p m1).failure p m2).getMessage p = m1 := by
  intro r p m1 m2 h
  have hall : ∀ kv ∈ r.messages, ¬((fun kv : String × String => kv.1 == p) kv = true) := by
    simp only [Response.hasPath, List.any_eq_false] at h
    exact h
  have h1 : r.messages.find? (fun kv => kv.1 == p) = none :=
    List.find?_eq_none.mpr hall
  have hstep1 : r.failure p m1 = { valid := false, messages := r.messages ++ [(p, m1)] } := by
    unfold Response.failure
    rw [if_neg (by simp [h])]
  have hhas : (r.failure p m1).hasPath p = true := by
    rw [hstep1]
    simp [Response.hasPath]
  have hstep2 : ∀ r2 : Response, r2.hasPath p = true →
      r2.failure p m2 = { r2 with valid := false } := by
    intro r2 h2
    unfold Response.failure
    rw [if_pos h2]
  have hmsgs : ((r.failure p m1).failure p m2).messages = r.messages ++ [(p, m1)] := by
    rw [hstep2 _ hhas, hstep1]
  unfold Response.getMessage
  rw [hmsgs, List.find?_append, h1]
  simp [List.find?_cons]

/-- C7 witness: the amended first-write-wins statement instantiated at the
fresh valid Response, its no-prior-entry hypothesis discharged by
computation. -/
theorem claim_c7_failure_first_write_wins_witness :
    ((Response.ok.failure "p" "a").failure "p" "b").getMessage "p" = "a" :=
  claim_c7_failure_first_write_wins Response.ok "p" "a" "b" (by decide)

/-- C4 counterexample: `ValidateStruct` on a non-struct value returns an
invalid Response with an empty messages mapping and no self-check involved,
refuting the claimed equivalence between invalidity and non-empty messages
(or self-check invalidity) for every Response the entry points produce. -/
theorem claim_c4_counterexample :
    (Validator.struct (Value.vstr "im not a struct")).valid = false ∧
    (Validator.struct (Value.vstr "im not a struct")).messages = [] := by decide

/-- C4 (amended): outside structural-shape failures (where the Response is
invalid with empty messages), the Valid flag is false iff the messages
mapping is non-empty or the attached self-check declared invalidity: this
holds for every field validation, for structural validation of struct-shaped
values, and for request validation of struct-shaped values with a
well-formed self-check; and `Failure` on a Response without messages makes
it invalid with that message retrievable. -/
theorem claim_c4_valid_iff :
    (∀ (v : Value) (spec : String),
      (Validator.field v spec).valid = true ↔ (Validator.field v spec).messages = []) ∧
    (∀ v : Value, structShaped v = true →
      ((Validator.struct v).valid = true ↔ (Validator.struct v).messages = [])) ∧
    (∀ rv : ReqValue, structShaped rv.value = true → scWellFormed rv →
      ((Validator.request rv).valid = true ↔
        ((Validator.request rv).messages = [] ∧ scValid rv = true))) ∧
    (∀ (r : Response) (p m : String), r.messages = [] →
      (r.failure p m).valid = false ∧ (r.failure p m).getMessage p = m) := by
  refine ⟨?_, struct_valid_iff, ?_, ?_⟩
  · intro v spec
    rw [field_char]
    cases (parseRules spec).find? (fun r => !evalRule r.1 r.2 v) <;> simp [Response.ok]
  · intro rv h hwf
    have hval : (Validator.request rv).valid = (requestBase rv).valid := rfl
    have hmsg : (Validator.request rv).messages =
        (requestBase rv).messages.map
          (fun kv => (kv.1, resolveMsg rv.overrides kv.1 kv.2)) := rfl
    rw [hval, hmsg, List.map_eq_nil_iff]
    cases hsc : rv.selfCheck with
    | none =>
      have hbase : requestBase rv = Validator.struct rv.value := by
        unfold requestBase
        rw [hsc]
      have hscv : scValid rv = true := by
        unfold scValid
        rw [hsc]
      rw [hbase, hscv]
      simp [struct_valid_iff rv.value h]
    | some sc =>
      have hbase : requestBase rv = (Validator.struct rv.value).merge sc := by
        unfold requestBase
        rw [hsc]
      have hscv : scValid rv = sc.valid := by
        unfold scValid
        rw [hsc]
      rw [hbase, hscv]
      unfold Response.merge
      simp only [Bool.and_eq_true]
      constructor
      · rintro ⟨hv, hscvalid⟩
        have hbm : (Validator.struct rv.value).messages = [] :=
          (struct_valid_iff rv.value h).mp hv
        have hsm : sc.messages = [] := hwf sc hsc hscvalid
        rw [hbm, hsm]
        exact ⟨rfl, hscvalid⟩
      · rintro ⟨hmerged, hscvalid⟩
        have hbm : (Validator.struct rv.value).messages = [] :=
          mergeMsgs_nil_base sc.messages (Validator.struct rv.value).messages hmerged
        exact ⟨(struct_valid_iff rv.value h).mpr hbm, hscvalid⟩
  · intro r p m hr
    have hstep : r.failure p m = { valid := false, messages := [(p, m)] } := by
      unfold Response.failure
      rw [if_neg (by simp [Response.hasPath, hr]), hr]
      simp
    rw [hstep]
    exact ⟨rfl, by simp [Response.getMessage, List.find?_cons]⟩

/-- C4 witness: the amended equivalences instantiated at the empty struct,
the empty request value and the fresh Response, with every hypothesis
discharged by computation. -/
theorem claim_c4_valid_iff_witness :
    ((Validator.struct (Value.vstruct FieldList.nil)).valid = true ↔
      (Validator.struct (Value.vstruct FieldList.nil)).messages = []) ∧
    ((Validator.request ⟨Value.vstruct FieldList.nil, [], none⟩).valid = true ↔
      ((Validator.request ⟨Value.vstruct FieldList.nil, [], none⟩).messages = [] ∧
        scValid ⟨Value.vstruct FieldList.nil, [], none⟩ = true)) ∧
    ((Response.ok.failure "p" "m").valid = false ∧
      (Response.ok.failure "p" "m").getMessage "p" = "m") :=
  ⟨claim_c4_valid_iff.2.1 (Value.vstruct FieldList.nil) (by decide),
   claim_c4_valid_iff.2.2.1 ⟨Value.vstruct FieldList.nil, [], none⟩
     (by decide) (fun sc h => by cases h),
   claim_c4_valid_iff.2.2.2 Response.ok "p" "m" rfl⟩

/-- C2: during request validation, every failing entry's message is resolved
by exact-path override first, then wildcard pattern (a `*` segment matching
an integer index), then the built-in default; structural validation never
consults the overrides.  Concretely, `password.gte` on a short password
yields the override `more length please` under Request but the built-in
default under Struct, and the wildcard entry `members.*.age.range` overrides
the message at `members.0.age.range`. -/
theorem claim_c2_override_resolution :
    (∀ (rv : ReqValue) (p : String),
      (Validator.request rv).getMessage p =
        match (requestBase rv).messages.find? (fun kv => kv.1 == p) with
        | some kv => resolveMsg rv.overrides p kv.2
        | none => "") ∧
    resolveMsg [("members.*.age.range", "WILD"), ("members.0.age.range", "EXACT")]
      "members.0.age.range" "DFLT" = "EXACT" ∧
    resolveMsg [("members.*.age.range", "WILD")] "members.0.age.range" "DFLT" = "WILD" ∧
    resolveMsg [("members.*.age.range", "WILD")] "members.1.name.kind" "DFLT" = "DFLT" ∧
    (Validator.request pwRV).getMessage "password.gte" = "more length please" ∧
    (Validator.struct pwEx).getMessage "password.gte" = "The password is invalid" ∧
    (Validator.request memRV).getMessage "members.0.age.range" = "invalid" ∧
    (Validator.struct memEx).getMessage "members.0.age.range"
      = "The age must be between 1 and 140" := by
  refine ⟨?_, by decide, by decide, by decide, by decide, by decide, by decide, by decide⟩
  intro rv p
  have hmsg : (Validator.request rv).messages =
      (requestBase rv).messages.map
        (fun kv => (kv.1, resolveMsg rv.overrides kv.1 kv.2)) := rfl
  unfold Response.getMessage
  rw [hmsg, find_map_resolve]
  rcases hfind : (requestBase rv).messages.find? (fun kv => kv.1 == p) with - | kv
  · rw [hfind]
    rfl
  · have hkey : kv.1 = p := by
      have := List.find?_some hfind
      simpa using this
    rw [hfind]
    simp [hkey]
